import Mathlib

/-!
Shallow embedding of `sim_bdb.py` (bdb-simple), the parameter-sampling and
constrained batch-simulation driver of the SDSDsim-phyddle experiments.

The numeric domain of Python floats is modelled by `ℝ`.  The external
branching-process simulator `sdsdsim.model.sim_SDSD_tree` is an out-of-scope
collaborator and is modelled as an opaque oracle function supplied as a
parameter, exactly as the driver treats it.  Python's `str()` rendering of a
float is modelled by an abstract function `pyStr : ℝ → String` supplied as a
parameter.  Error exits (an `assert` failure, a `ValueError` from
`math.log10`, a `KeyError` from a dict comprehension) are modelled as
explicit outcome constructors.
-/

namespace SimBdb

/-- The numpy random generator, modelled as an infinite stream of scalar
draws together with a position.  Every consumed draw advances the position;
the stream itself is an abstract function of the seed. -/
structure RNG where
  stream : ℕ → ℝ
  pos : ℕ

/-- Consume one scalar from the stream (models `rng.random()` and one
internal draw of a scipy distribution). -/
def RNG.next (r : RNG) : ℝ × RNG :=
  (r.stream r.pos, ⟨r.stream, r.pos + 1⟩)

/-- A sampling distribution as used by the driver: either the `FixedRV`
class of `sim_bdb.py` (returns its constant and consumes no randomness) or
`scipy.stats.uniform(loc, scale)` (consumes one draw `u` and returns
`loc + scale * u`). -/
inductive Dist where
  | fixedRV (x : ℝ)
  | uniform (loc scale : ℝ)

/-- One call of `.rvs(size = None, random_state = rng)`. -/
def Dist.rvs : Dist → RNG → ℝ × RNG
  | .fixedRV x, rng => (x, rng)
  | .uniform loc scale, rng =>
      let u := rng.next
      (loc + scale * u.1, u.2)

/-- The `Priors` object of `sim_bdb.py`. -/
structure Priors where
  state_rate : Dist
  log_birth_rate : Dist
  log_death_rate_prop : Dist
  burst_rate_prop : Dist
  burst_prob : Dist
  model : Dist

/-- Default prior set of `Priors.__init__`. -/
def defaultPriors : Priors :=
  { state_rate := .fixedRV 0.00001
    log_birth_rate := .uniform (-2.0) 2.0
    log_death_rate_prop := .uniform (-2.0) 2.0
    burst_rate_prop := .uniform 0.2 0.8
    burst_prob := .uniform 0.4 0.6
    model := .uniform 0 1 }

/-- Python's `10**x` on floats, modelled as the real power. -/
noncomputable def pow10 (x : ℝ) : ℝ := (10 : ℝ) ^ x

/-- The `sdsdsim.model.SDSDModel` descriptor, restricted to the fields the
driver constructs and reads.  The 2×2 generator `q` is stored as a pair of
rows; `sdsd_model.ctmc.q[i][j]` is read through these components. -/
structure SDSDModel where
  q : (ℝ × ℝ) × (ℝ × ℝ)
  birth_rates : ℝ × ℝ
  death_rates : ℝ × ℝ
  burst_rate : ℝ
  burst_probs : ℝ × ℝ
  burst_furcation_poisson_means : ℝ × ℝ
  burst_furcation_poisson_shifts : ℕ × ℕ
  only_bifurcate : Bool

/-- Transcription of `draw_bdb_model(priors, rng)`: five prior draws in the
fixed order of the source, the derived birth/death/burst parameters, and the
assembled model descriptor. -/
noncomputable def draw_bdb_model (priors : Priors) (rng : RNG) : SDSDModel × RNG :=
  let sr := priors.state_rate.rvs rng
  let state_rate := sr.1
  let br := priors.log_birth_rate.rvs sr.2
  let log_birth_rate_0 := br.1
  let birth_rate_0 := pow10 log_birth_rate_0
  let birth_rate_1 := birth_rate_0
  let dr := priors.log_death_rate_prop.rvs br.2
  let death_rate_mult := pow10 dr.1
  let death_rate := min birth_rate_0 birth_rate_1 * death_rate_mult
  let bu := priors.burst_rate_prop.rvs dr.2
  let burst_rate := min birth_rate_0 birth_rate_1 * bu.1
  let bp := priors.burst_prob.rvs bu.2
  let burst_prob := bp.1
  ({ q := ((-state_rate, state_rate), (state_rate, -state_rate))
     birth_rates := (birth_rate_0, birth_rate_1)
     death_rates := (death_rate, death_rate)
     burst_rate := burst_rate
     burst_probs := (burst_prob, burst_prob)
     burst_furcation_poisson_means := (1.0, 1.0)
     burst_furcation_poisson_shifts := (2, 2)
     only_bifurcate := true }, bp.2)

/-- A leaf of the simulated tree, as read by `stream_tip_states`:
its label and its terminal (leafward) state. -/
structure Leaf where
  label : String
  leafward_state : ℕ
deriving DecidableEq

/-- The tree handle returned by the oracle, restricted to what the driver
reads: the three leaf counts, the leaves in `leaf_iter()` order, and the
Newick serialization produced by `write_newick_simple` (an external writer
that serializes the tree shape; it is modelled as an opaque string carried
by the handle). -/
structure TreeHandle where
  number_of_leaves : ℕ
  number_of_extant_leaves : ℕ
  number_of_extinct_leaves : ℕ
  leaves : List Leaf
  newick : String
deriving DecidableEq

/-- The result triple of `sdsdsim.model.sim_SDSD_tree`. -/
structure SimResult where
  survived : Bool
  root : TreeHandle
  burst_times : List ℝ

/-- The external simulation oracle: a function of the seed, the model
descriptor, the root state and the four stopping constraints, in the order
the driver passes them. -/
def Oracle : Type :=
  ℝ → SDSDModel → ℕ → Option ℕ → Option ℕ → Option ℕ → Option ℝ → SimResult

/-- Python's `sep.join(parts)`. -/
def pyJoin (sep : String) : List String → String
  | [] => ""
  | x :: xs => xs.foldl (fun acc y => acc ++ sep ++ y) x

/-- Lexicographic (code-point) comparison of char lists, the order Python
uses to compare strings. -/
def charListLe : List Char → List Char → Bool
  | [], _ => true
  | _ :: _, [] => false
  | c :: cs, d :: ds => if c < d then true else if d < c then false else charListLe cs ds

/-- Python's `<=` on strings. -/
def strLeb (a b : String) : Bool := charListLe a.data b.data

/-- Python's `sorted` on a list of strings (ascending lexicographic). -/
def pySorted (l : List String) : List String :=
  l.insertionSort (fun a b => strLeb a b = true)

/-- Content written by `stream_tip_states(out_stream, root, all_zeros)`:
the `taxa,data` header and one row per leaf in iteration order. -/
def stream_tip_states (root : TreeHandle) (all_zeros : Bool) : String :=
  "taxa,data\n" ++ String.join (root.leaves.map (fun leaf =>
    if all_zeros then leaf.label ++ ",0\n"
    else leaf.label ++ "," ++ toString leaf.leafward_state ++ "\n"))

/-- Content written by `stream_variables(out_stream, var_dict)`: a header of
the sorted variable names and one row of the corresponding values, both
comma-joined.  `var_dict` is the insertion-ordered dict, modelled as an
association list; `pyStr` renders a float as `str` does. -/
def stream_variables (pyStr : ℝ → String) (var_dict : List (String × ℝ)) : String :=
  let names := pySorted (var_dict.map Prod.fst)
  let header := pyJoin "," names
  let vals := pyJoin "," (names.map (fun n => pyStr ((var_dict.lookup n).getD 0)))
  header ++ "\n" ++ vals ++ "\n"

/-- Transcription of `get_model_parameters(sdsd_model)`: the insertion-order
association list of the eleven derived parameters. -/
def get_model_parameters (m : SDSDModel) : List (String × ℝ) :=
  [ ("state_rate_01", m.q.1.2),
    ("state_rate_10", m.q.2.1),
    ("birth_rate_0", m.birth_rates.1),
    ("birth_rate_1", m.birth_rates.2),
    ("death_rate_0", m.death_rates.1),
    ("death_rate_1", m.death_rates.2),
    ("burst_rate", m.burst_rate),
    ("burst_prob_0", m.burst_probs.1),
    ("burst_prob_1", m.burst_probs.2),
    ("expected_burst_rate_0", m.burst_rate * m.burst_probs.1),
    ("expected_burst_rate_1", m.burst_rate * m.burst_probs.2) ]

/-- Python's `math.log10(v)`: defined (base-10 logarithm) for `v > 0`,
raises `ValueError` (modelled as `none`) otherwise. -/
noncomputable def math_log10 (v : ℝ) : Option ℝ :=
  if 0 < v then some (Real.logb 10 v) else none

/-- Sequenced option-valued map, modelling a Python loop or comprehension
whose body may raise: the first failure aborts the whole construction. -/
def optMapList (f : α → Option β) : List α → Option (List β)
  | [] => some []
  | a :: l =>
      match f a, optMapList f l with
      | some b, some bs => some (b :: bs)
      | _, _ => none

/-- Transcription of `get_log10_model_parameters(sdsd_model)`: every derived
parameter, key prefixed with `log10_`, value passed through `math.log10`;
`none` models the `ValueError` raised on a non-positive value. -/
noncomputable def get_log10_model_parameters (m : SDSDModel) :
    Option (List (String × ℝ)) :=
  optMapList (fun kv => (math_log10 kv.2).map (fun l => ("log10_" ++ kv.1, l)))
    (get_model_parameters m)

/-- The dict comprehension `{k : d[k] for k in ks}`; `none` models the
`KeyError` raised when a requested key is absent. -/
def pyDictComp (d : List (String × ℝ)) (ks : List String) :
    Option (List (String × ℝ)) :=
  optMapList (fun k => (d.lookup k).map (fun v => (k, v))) ks

/-- The configuration block hard-coded in `main()` (§6 of the spec treats it
as a structured option set supplied by a configuration collaborator). -/
structure Config where
  root_state : ℕ
  keep_extinct_trees : Bool
  max_extant_leaves : Option ℕ
  tree_width : ℕ
  max_total_leaves : Option ℕ
  max_extinct_leaves : Option ℕ
  max_time : Option ℝ
  max_leaves_strict : Bool
  label_names : List String

/-- Python truthiness of an optional integer limit: `None` and `0` are
falsy, every other integer is truthy. -/
def pyTruthy : Option ℕ → Bool
  | none => false
  | some n => n != 0

/-- The diagnostic written for a strict-mode total-leaf overage. -/
def totalMsg (limit n : ℕ) : String :=
  "max_total_leaves is " ++ toString limit ++
    " and final shared event resulted in " ++ toString n ++
    " leaves...\n\tDiscarding this simulation!\n"

/-- The diagnostic written for a strict-mode extant-leaf overage. -/
def extantMsg (limit n : ℕ) : String :=
  "max_extant_leaves is " ++ toString limit ++
    " and final shared event resulted in " ++ toString n ++
    " leaves...\n\tDiscarding this simulation!\n"

/-- The diagnostic written for a strict-mode extinct-leaf overage. -/
def extinctMsg (limit n : ℕ) : String :=
  "max_extinct_leaves is " ++ toString limit ++
    " and final shared event resulted in " ++ toString n ++
    " leaves...\n\tDiscarding this simulation!\n"

/-- The strict-mode shape checks of `main()` (lines 184–207), evaluated in
source order: the diagnostic of the first limit that is truthy and
exceeded, or `none` when no check rejects. -/
def strictRejectMsg (cfg : Config) (root : TreeHandle) : Option String :=
  if cfg.max_leaves_strict then
    if pyTruthy cfg.max_total_leaves &&
        decide (root.number_of_leaves > cfg.max_total_leaves.getD 0) then
      some (totalMsg (cfg.max_total_leaves.getD 0) root.number_of_leaves)
    else if pyTruthy cfg.max_extant_leaves &&
        decide (root.number_of_extant_leaves > cfg.max_extant_leaves.getD 0) then
      some (extantMsg (cfg.max_extant_leaves.getD 0) root.number_of_extant_leaves)
    else if pyTruthy cfg.max_extinct_leaves &&
        decide (root.number_of_extinct_leaves > cfg.max_extinct_leaves.getD 0) then
      some (extinctMsg (cfg.max_extinct_leaves.getD 0) root.number_of_extinct_leaves)
    else none
  else none

/-- The three files written for an accepted replicate. -/
structure OutputTriple where
  labels : String
  data : String
  tre : String
deriving DecidableEq

/-- Outcome of one attempt of the loop body: a retryable rejection with its
list of stderr diagnostics, the fatal `assert` failure, an unhandled
exception while deriving labels, or acceptance with the tree and the three
file contents. -/
inductive StepResult where
  | rejected (msgs : List String)
  | fatal
  | crashed
  | accepted (root : TreeHandle) (files : OutputTriple)

/-- The model draw, seed draw and oracle invocation performed at the top of
every attempt (lines 168–180 of `main()`): returns the drawn model, the
oracle's result and the post-attempt rng. -/
noncomputable def attemptSim (cfg : Config) (oracle : Oracle) (priors : Priors)
    (rng : RNG) : SDSDModel × SimResult × RNG :=
  let mr := draw_bdb_model priors rng
  let seed := RNG.next mr.2
  (mr.1,
   oracle seed.1 mr.1 cfg.root_state cfg.max_extant_leaves cfg.max_extinct_leaves
     cfg.max_total_leaves cfg.max_time,
   seed.2)

/-- One full attempt of the loop body of `main()` (lines 168–226): survival
check, strict-mode checks, the exact-width `assert`, label derivation and
the three output file contents. -/
noncomputable def attemptStep (cfg : Config) (oracle : Oracle) (priors : Priors)
    (pyStr : ℝ → String) (rng : RNG) : StepResult × RNG :=
  let a := attemptSim cfg oracle priors rng
  let model := a.1
  let res := a.2.1
  let rng2 := a.2.2
  if !res.survived && !cfg.keep_extinct_trees then (.rejected [], rng2)
  else
    match strictRejectMsg cfg res.root with
    | some msg => (.rejected [msg], rng2)
    | none =>
        if res.root.number_of_extant_leaves = cfg.tree_width then
          match get_log10_model_parameters model with
          | none => (.crashed, rng2)
          | some log10_variables =>
              match (if cfg.label_names.isEmpty then some log10_variables
                     else pyDictComp log10_variables cfg.label_names) with
              | none => (.crashed, rng2)
              | some reduced =>
                  (.accepted res.root
                    { labels := stream_variables pyStr reduced
                      data := stream_tip_states res.root true
                      tre := res.root.newick ++ ";\n" }, rng2)
        else (.fatal, rng2)

/-- Outcome of a whole batch run: normal completion with the accepted
files keyed by replicate index and the stderr log, an abort on the fatal
`assert`, an unhandled exception, or fuel exhaustion (the source loop is
unbounded; fuel makes the model total). -/
inductive RunOutcome where
  | completed (files : List (ℕ × OutputTriple)) (stderrLog : List String) (rng : RNG)
  | aborted (files : List (ℕ × OutputTriple)) (stderrLog : List String)
  | crashed (files : List (ℕ × OutputTriple)) (stderrLog : List String)
  | outOfFuel (files : List (ℕ × OutputTriple)) (stderrLog : List String)

/-- The `while sim_idx < (start_idx + batch_size)` loop of `main()`:
rejected attempts re-enter the loop with the same index and unchanged file
list; accepted attempts append their triple keyed by the current index and
advance it. -/
noncomputable def runLoop (cfg : Config) (oracle : Oracle) (priors : Priors)
    (pyStr : ℝ → String) :
    ℕ → ℕ → ℕ → RNG → List (ℕ × OutputTriple) → List String → RunOutcome
  | 0, _, _, _, files, log => .outOfFuel files log
  | fuel + 1, sim_idx, end_idx, rng, files, log =>
      if sim_idx < end_idx then
        match attemptStep cfg oracle priors pyStr rng with
        | (.rejected msgs, rng2) =>
            runLoop cfg oracle priors pyStr fuel sim_idx end_idx rng2 files (log ++ msgs)
        | (.fatal, _) => .aborted files log
        | (.crashed, _) => .crashed files log
        | (.accepted _ triple, rng2) =>
            runLoop cfg oracle priors pyStr fuel (sim_idx + 1) end_idx rng2
              (files ++ [(sim_idx, triple)]) log
      else .completed files log rng

/-- The label subset configured in `main()` (all eleven log10 labels). -/
def mainLabelNames : List String :=
  [ "log10_state_rate_01",
    "log10_state_rate_10",
    "log10_birth_rate_0",
    "log10_birth_rate_1",
    "log10_death_rate_0",
    "log10_death_rate_1",
    "log10_burst_rate",
    "log10_burst_prob_0",
    "log10_burst_prob_1",
    "log10_expected_burst_rate_0",
    "log10_expected_burst_rate_1" ]

/-- The configuration hard-coded in `main()` (lines 131–158). -/
def mainConfig : Config :=
  { root_state := 0
    keep_extinct_trees := false
    max_extant_leaves := some 500
    tree_width := 500
    max_total_leaves := none
    max_extinct_leaves := none
    max_time := none
    max_leaves_strict := true
    label_names := mainLabelNames }

/-- The whole driver run of `main()`: the single random stream is seeded
once from `start_idx` (`np.random.default_rng(start_idx)`, modelled by the
abstract seeding function `default_rng`), and the loop runs until
`batch_size` replicates are accepted. -/
noncomputable def sim_main (default_rng : ℕ → RNG) (oracle : Oracle) (priors : Priors)
    (pyStr : ℝ → String) (start_idx batch_size fuel : ℕ) : RunOutcome :=
  runLoop mainConfig oracle priors pyStr fuel start_idx (start_idx + batch_size)
    (default_rng start_idx) [] []

/-! ### General lemmas about the embedding -/

theorem optMapList_isSome_iff (f : α → Option β) (l : List α) :
    (optMapList f l).isSome ↔ ∀ x ∈ l, (f x).isSome := by
  induction l with
  | nil => simp [optMapList]
  | cons a l ih =>
      cases ha : f a with
      | none => simp [optMapList, ha]
      | some b =>
          cases hl : optMapList f l with
          | none => simp_all [optMapList, ha, hl]
          | some bs => simp_all [optMapList, ha, hl]

theorem optMapList_eq_some_map (f : α → Option β) (g : α → β) (l : List α)
    (h : ∀ x ∈ l, f x = some (g x)) : optMapList f l = some (l.map g) := by
  induction l with
  | nil => rfl
  | cons a l ih =>
      have ha : f a = some (g a) := h a (by simp)
      have hl := ih (fun x hx => h x (by simp [hx]))
      simp [optMapList, ha, hl]

theorem math_log10_isSome (v : ℝ) : (math_log10 v).isSome ↔ 0 < v := by
  unfold math_log10
  split <;> simp_all

theorem option_map_isSome (f : α → β) (o : Option α) :
    (o.map f).isSome = o.isSome := by
  cases o <;> rfl

theorem pyDictComp_keys (d : List (String × ℝ)) (ks : List String)
    (rs : List (String × ℝ)) (h : pyDictComp d ks = some rs) :
    rs.map Prod.fst = ks := by
  induction ks generalizing rs with
  | nil =>
      simp only [pyDictComp, optMapList] at h
      cases h
      rfl
  | cons k ks ih =>
      simp only [pyDictComp, optMapList] at h
      cases hk : (d.lookup k).map (fun v => (k, v)) with
      | none => rw [hk] at h; cases h
      | some kv =>
          rw [hk] at h
          cases hl : optMapList (fun k => (d.lookup k).map (fun v => (k, v))) ks with
          | none => rw [hl] at h; cases h
          | some rest =>
              rw [hl] at h
              cases h
              have hfst : kv.1 = k := by
                cases hv : d.lookup k with
                | none => rw [hv] at hk; cases hk
                | some v => rw [hv] at hk; cases hk; rfl
              simp [hfst, ih rest hl]

/-! ### C4: invariants of the sampled model parameters -/

/-- C4: for every priors object and rng, `draw_bdb_model` copies the state-1
birth rate from the state-0 birth rate, sets both death rates to
`min(birth_rate_0, birth_rate_1) * 10**log_death_mult` with the drawn death
multiplier, sets the burst rate to `min(birth_rate_0, birth_rate_1) *
burst_mult` with the drawn burst multiplier applied linearly, and assigns
the same drawn burst probability to both states. -/
theorem c4_draw_bdb_model_invariants (priors : Priors) (rng : RNG) :
    let m := (draw_bdb_model priors rng).1
    let s1 := (priors.state_rate.rvs rng).2
    let lb := priors.log_birth_rate.rvs s1
    let dm := priors.log_death_rate_prop.rvs lb.2
    let bm := priors.burst_rate_prop.rvs dm.2
    m.birth_rates.2 = m.birth_rates.1 ∧
    m.death_rates.1 = min m.birth_rates.1 m.birth_rates.2 * pow10 dm.1 ∧
    m.death_rates.2 = m.death_rates.1 ∧
    m.burst_rate = min m.birth_rates.1 m.birth_rates.2 * bm.1 ∧
    m.burst_probs.1 = m.burst_probs.2 :=
  ⟨rfl, rfl, rfl, rfl, rfl⟩

/-! ### C8: the log10 parameter map and its failure condition -/

/-- C8: `get_log10_model_parameters` maps every derived parameter key,
prefixed with `log10_`, to the base-10 logarithm of its value; it fails
(raises `ValueError`, modelled as `none`) iff at least one derived value is
non-positive, and succeeds iff all derived values are strictly positive. -/
theorem c8_get_log10_model_parameters (m : SDSDModel) :
    ((get_log10_model_parameters m).isSome ↔
        ∀ kv ∈ get_model_parameters m, 0 < kv.2) ∧
    ((get_log10_model_parameters m).isNone ↔
        ∃ kv ∈ get_model_parameters m, kv.2 ≤ 0) ∧
    (∀ ps, get_log10_model_parameters m = some ps →
        ps = (get_model_parameters m).map
          (fun kv => ("log10_" ++ kv.1, Real.logb 10 kv.2))) := by
  have h1 : (get_log10_model_parameters m).isSome ↔
      ∀ kv ∈ get_model_parameters m, 0 < kv.2 := by
    rw [get_log10_model_parameters, optMapList_isSome_iff]
    constructor
    · intro h kv hkv
      have := h kv hkv
      rw [option_map_isSome] at this
      exact (math_log10_isSome kv.2).mp this
    · intro h kv hkv
      rw [option_map_isSome]
      exact (math_log10_isSome kv.2).mpr (h kv hkv)
  refine ⟨h1, ?_, ?_⟩
  · rw [Option.isNone_iff_eq_none, ← Option.not_isSome_iff_eq_none, h1]
    push_neg
    simp only [not_lt]
  · intro ps hps
    have hsome : (get_log10_model_parameters m).isSome := by rw [hps]; rfl
    have hpos := h1.mp hsome
    have heq : get_log10_model_parameters m =
        some ((get_model_parameters m).map
          (fun kv => ("log10_" ++ kv.1, Real.logb 10 kv.2))) := by
      rw [get_log10_model_parameters]
      apply optMapList_eq_some_map
      intro kv hkv
      rw [math_log10, if_pos (hpos kv hkv)]
      rfl
    rw [hps] at heq
    exact Option.some.inj heq

/-- A concrete model descriptor with all derived parameter values equal to
one, used to exhibit the success case of the log10 map. -/
noncomputable def modelW : SDSDModel :=
  { q := ((-1, 1), (1, -1))
    birth_rates := (1, 1)
    death_rates := (1, 1)
    burst_rate := 1
    burst_probs := (1, 1)
    burst_furcation_poisson_means := (1.0, 1.0)
    burst_furcation_poisson_shifts := (2, 2)
    only_bifurcate := true }

/-- Witness for C8: on a model whose eleven derived values are all one,
the strict-positivity precondition holds and the log10 map succeeds. -/
theorem c8_witness :
    (∀ kv ∈ get_model_parameters modelW, 0 < kv.2) ∧
    (get_log10_model_parameters modelW).isSome := by
  have hpos : ∀ kv ∈ get_model_parameters modelW, 0 < kv.2 := by
    intro kv hkv
    simp only [get_model_parameters, modelW, List.mem_cons, List.not_mem_nil,
      or_false] at hkv
    rcases hkv with rfl | rfl | rfl | rfl | rfl | rfl | rfl | rfl | rfl | rfl | rfl <;>
      norm_num
  exact ⟨hpos, (c8_get_log10_model_parameters modelW).1.mpr hpos⟩

/-! ### Concrete instances used to witness the attempt-level theorems -/

theorem pow10_zero : pow10 0 = 1 := Real.rpow_zero 10

/-- A constant draw stream. -/
def streamW : ℕ → ℝ := fun _ => 0

/-- A concrete rng at position zero. -/
def rngW : RNG := ⟨streamW, 0⟩

/-- A concrete float renderer. -/
def pyStrW : ℝ → String := fun _ => "0"

/-- Degenerate priors: every distribution fixed. -/
def priorsW : Priors :=
  { state_rate := .fixedRV 1
    log_birth_rate := .fixedRV 0
    log_death_rate_prop := .fixedRV 0
    burst_rate_prop := .fixedRV 1
    burst_prob := .fixedRV 1
    model := .fixedRV 0 }

/-- A surviving one-leaf tree. -/
def treeW : TreeHandle :=
  { number_of_leaves := 1
    number_of_extant_leaves := 1
    number_of_extinct_leaves := 0
    leaves := [⟨"t0", 0⟩]
    newick := "(t0)" }

/-- An oracle stub that always returns the surviving one-leaf tree. -/
def oracleW : Oracle := fun _ _ _ _ _ _ _ => ⟨true, treeW, []⟩

/-- An oracle stub whose tree never survives. -/
def oracleDead : Oracle := fun _ _ _ _ _ _ _ => ⟨false, treeW, []⟩

/-- A surviving 400-extant-leaf tree (passes the strict checks of
`mainConfig` but misses the target width). -/
def tree400 : TreeHandle :=
  { number_of_leaves := 400
    number_of_extant_leaves := 400
    number_of_extinct_leaves := 0
    leaves := []
    newick := "" }

/-- An oracle stub returning the 400-extant-leaf tree. -/
def oracle400 : Oracle := fun _ _ _ _ _ _ _ => ⟨true, tree400, []⟩

/-- A surviving 501-extant-leaf tree (one over the `mainConfig` width). -/
def tree501 : TreeHandle :=
  { number_of_leaves := 501
    number_of_extant_leaves := 501
    number_of_extinct_leaves := 0
    leaves := []
    newick := "" }

/-- An oracle stub returning the 501-extant-leaf tree. -/
def oracle501 : Oracle := fun _ _ _ _ _ _ _ => ⟨true, tree501, []⟩

/-- A minimal accepting configuration: target width one, no strict limits,
no label subset. -/
def cfgW : Config :=
  { root_state := 0
    keep_extinct_trees := false
    max_extant_leaves := none
    tree_width := 1
    max_total_leaves := none
    max_extinct_leaves := none
    max_time := none
    max_leaves_strict := false
    label_names := [] }

/-- The model drawn from `priorsW` (all multipliers one, log rates zero). -/
noncomputable def mW : SDSDModel :=
  { q := ((-1, 1), (1, -1))
    birth_rates := (pow10 0, pow10 0)
    death_rates := (min (pow10 0) (pow10 0) * pow10 0, min (pow10 0) (pow10 0) * pow10 0)
    burst_rate := min (pow10 0) (pow10 0) * 1
    burst_probs := (1, 1)
    burst_furcation_poisson_means := (1.0, 1.0)
    burst_furcation_poisson_shifts := (2, 2)
    only_bifurcate := true }

theorem draw_bdb_modelW : draw_bdb_model priorsW rngW = (mW, rngW) := rfl

/-- The log10 parameter list of `mW`. -/
noncomputable def psListW : List (String × ℝ) :=
  (get_model_parameters mW).map (fun kv => ("log10_" ++ kv.1, Real.logb 10 kv.2))

theorem log10W : get_log10_model_parameters mW = some psListW := by
  rw [get_log10_model_parameters]
  apply optMapList_eq_some_map
  intro kv hkv
  have hpos : 0 < kv.2 := by
    simp only [get_model_parameters, mW, List.mem_cons, List.not_mem_nil,
      or_false] at hkv
    rcases hkv with rfl | rfl | rfl | rfl | rfl | rfl | rfl | rfl | rfl | rfl | rfl <;>
      norm_num [pow10_zero]
  rw [math_log10, if_pos hpos]
  rfl

/-- The output triple of the accepted `cfgW` attempt. -/
def tripleW : OutputTriple :=
  { labels := "log10_birth_rate_0,log10_birth_rate_1,log10_burst_prob_0,log10_burst_prob_1,log10_burst_rate,log10_death_rate_0,log10_death_rate_1,log10_expected_burst_rate_0,log10_expected_burst_rate_1,log10_state_rate_01,log10_state_rate_10\n0,0,0,0,0,0,0,0,0,0,0\n"
    data := "taxa,data\nt0,0\n"
    tre := "(t0);\n" }

set_option maxRecDepth 4000 in
theorem attemptStep_acceptW :
    attemptStep cfgW oracleW priorsW pyStrW rngW =
      (.accepted treeW tripleW, ⟨streamW, 1⟩) := by
  simp only [attemptStep, attemptSim, draw_bdb_modelW, log10W]
  rfl

/-! ### Loop-level lemmas -/

theorem runLoop_rejected_step (cfg : Config) (oracle : Oracle) (priors : Priors)
    (pyStr : ℝ → String) (fuel idx end_idx : ℕ) (rng : RNG)
    (files : List (ℕ × OutputTriple)) (log msgs : List String) (rng2 : RNG)
    (hlt : idx < end_idx)
    (hstep : attemptStep cfg oracle priors pyStr rng = (.rejected msgs, rng2)) :
    runLoop cfg oracle priors pyStr (fuel + 1) idx end_idx rng files log =
      runLoop cfg oracle priors pyStr fuel idx end_idx rng2 files (log ++ msgs) := by
  simp only [runLoop]
  rw [if_pos hlt, hstep]

theorem runLoop_fatal_step (cfg : Config) (oracle : Oracle) (priors : Priors)
    (pyStr : ℝ → String) (fuel idx end_idx : ℕ) (rng : RNG)
    (files : List (ℕ × OutputTriple)) (log : List String) (rng2 : RNG)
    (hlt : idx < end_idx)
    (hstep : attemptStep cfg oracle priors pyStr rng = (.fatal, rng2)) :
    runLoop cfg oracle priors pyStr (fuel + 1) idx end_idx rng files log =
      .aborted files log := by
  simp only [runLoop]
  rw [if_pos hlt, hstep]

theorem runLoop_accepted_step (cfg : Config) (oracle : Oracle) (priors : Priors)
    (pyStr : ℝ → String) (fuel idx end_idx : ℕ) (rng : RNG)
    (files : List (ℕ × OutputTriple)) (log : List String) (root : TreeHandle)
    (triple : OutputTriple) (rng2 : RNG)
    (hlt : idx < end_idx)
    (hstep : attemptStep cfg oracle priors pyStr rng = (.accepted root triple, rng2)) :
    runLoop cfg oracle priors pyStr (fuel + 1) idx end_idx rng files log =
      runLoop cfg oracle priors pyStr fuel (idx + 1) end_idx rng2
        (files ++ [(idx, triple)]) log := by
  simp only [runLoop]
  rw [if_pos hlt, hstep]

theorem runLoop_exit (cfg : Config) (oracle : Oracle) (priors : Priors)
    (pyStr : ℝ → String) (fuel idx end_idx : ℕ) (rng : RNG)
    (files : List (ℕ × OutputTriple)) (log : List String)
    (hge : ¬ idx < end_idx) :
    runLoop cfg oracle priors pyStr (fuel + 1) idx end_idx rng files log =
      .completed files log rng := by
  simp only [runLoop]
  rw [if_neg hge]

theorem runLoop_completed_indices (cfg : Config) (oracle : Oracle) (priors : Priors)
    (pyStr : ℝ → String) :
    ∀ fuel idx end_idx rng files log files2 log2 rng2,
      runLoop cfg oracle priors pyStr fuel idx end_idx rng files log =
        .completed files2 log2 rng2 →
      files2.map Prod.fst = files.map Prod.fst ++ List.range' idx (end_idx - idx) := by
  intro fuel
  induction fuel with
  | zero =>
      intro idx end_idx rng files log files2 log2 rng2 h
      simp only [runLoop] at h
      exact RunOutcome.noConfusion h
  | succ fuel ih =>
      intro idx end_idx rng files log files2 log2 rng2 h
      simp only [runLoop] at h
      by_cases hlt : idx < end_idx
      · rw [if_pos hlt] at h
        rcases hstep : attemptStep cfg oracle priors pyStr rng with ⟨sr, rngN⟩
        rw [hstep] at h
        cases sr with
        | rejected msgs => exact ih _ _ _ _ _ _ _ _ h
        | fatal => simp at h
        | crashed => simp at h
        | accepted root triple =>
            have h2 := ih _ _ _ _ _ _ _ _ h
            rw [h2, List.map_append]
            obtain ⟨k, hk⟩ : ∃ k, end_idx - idx = k + 1 := ⟨end_idx - idx - 1, by omega⟩
            have hk2 : end_idx - (idx + 1) = k := by omega
            rw [hk, hk2, List.range'_succ]
            simp
      · rw [if_neg hlt] at h
        cases h
        have h0 : end_idx - idx = 0 := by omega
        simp [h0]

/-! ### C1: exact-width invariant and the fatal assertion -/

/-- C1: an accepted attempt always carries a tree whose extant leaf count
equals `tree_width`; an attempt that passes the survival check and all
strict-mode checks but whose extant leaf count differs from `tree_width`
makes the attempt end in the fatal `assert` outcome, and a fatal attempt
aborts the whole batch loop instead of retrying. -/
theorem c1_accepted_width_exact (cfg : Config) (oracle : Oracle) (priors : Priors)
    (pyStr : ℝ → String) (rng : RNG) :
    (∀ root files rng2,
        attemptStep cfg oracle priors pyStr rng = (.accepted root files, rng2) →
        root.number_of_extant_leaves = cfg.tree_width) ∧
    (((attemptSim cfg oracle priors rng).2.1.survived || cfg.keep_extinct_trees) = true →
      strictRejectMsg cfg (attemptSim cfg oracle priors rng).2.1.root = none →
      (attemptSim cfg oracle priors rng).2.1.root.number_of_extant_leaves ≠ cfg.tree_width →
      attemptStep cfg oracle priors pyStr rng =
        (.fatal, (attemptSim cfg oracle priors rng).2.2)) ∧
    (∀ fuel idx end_idx rng0 files log rng2, idx < end_idx →
      attemptStep cfg oracle priors pyStr rng0 = (.fatal, rng2) →
      runLoop cfg oracle priors pyStr (fuel + 1) idx end_idx rng0 files log =
        .aborted files log) := by
  refine ⟨?_, ?_, ?_⟩
  · intro root files rng2 h
    simp only [attemptStep] at h
    by_cases h1 : (!(attemptSim cfg oracle priors rng).2.1.survived &&
        !cfg.keep_extinct_trees) = true
    · rw [if_pos h1] at h
      exact absurd h (by simp)
    · rw [if_neg h1] at h
      cases h2 : strictRejectMsg cfg (attemptSim cfg oracle priors rng).2.1.root with
      | some m =>
          rw [h2] at h
          exact absurd h (by simp)
      | none =>
          rw [h2] at h
          dsimp only at h
          by_cases h3 : (attemptSim cfg oracle priors rng).2.1.root.number_of_extant_leaves
              = cfg.tree_width
          · rw [if_pos h3] at h
            cases h4 : get_log10_model_parameters (attemptSim cfg oracle priors rng).1 with
            | none =>
                rw [h4] at h
                exact absurd h (by simp)
            | some lv =>
                rw [h4] at h
                dsimp only at h
                cases h5 : (if cfg.label_names.isEmpty then some lv
                    else pyDictComp lv cfg.label_names) with
                | none =>
                    rw [h5] at h
                    exact absurd h (by simp)
                | some reduced =>
                    rw [h5] at h
                    rw [Prod.mk.injEq] at h
                    cases (StepResult.accepted.inj h.1).1
                    exact h3
          · rw [if_neg h3] at h
            exact absurd h (by simp)
  · intro hsurv hstrict hwidth
    have hcond : (!(attemptSim cfg oracle priors rng).2.1.survived &&
        !cfg.keep_extinct_trees) = false := by
      rw [← Bool.not_or, hsurv]
      rfl
    simp only [attemptStep]
    rw [hcond]
    simp only [Bool.false_eq_true, if_false]
    rw [hstrict, if_neg hwidth]
  · intro fuel idx end_idx rng0 files log rng2 hlt hstep
    exact runLoop_fatal_step cfg oracle priors pyStr fuel idx end_idx rng0
      files log rng2 hlt hstep

/-- Witness for C1: with the driver's own configuration and an oracle stub
returning a surviving 400-extant-leaf tree (passing survival and all strict
checks but missing the 500-leaf target), the attempt ends fatal; and on the
accepting instance the accepted tree has exactly the target width. -/
theorem c1_witness :
    ((attemptSim mainConfig oracle400 defaultPriors rngW).2.1.survived ||
        mainConfig.keep_extinct_trees) = true ∧
    strictRejectMsg mainConfig (attemptSim mainConfig oracle400 defaultPriors rngW).2.1.root
      = none ∧
    (attemptSim mainConfig oracle400 defaultPriors rngW).2.1.root.number_of_extant_leaves
      ≠ mainConfig.tree_width ∧
    attemptStep mainConfig oracle400 defaultPriors pyStrW rngW =
      (.fatal, (attemptSim mainConfig oracle400 defaultPriors rngW).2.2) ∧
    treeW.number_of_extant_leaves = cfgW.tree_width := by
  refine ⟨rfl, rfl, by decide, ?_, ?_⟩
  · exact (c1_accepted_width_exact mainConfig oracle400 defaultPriors pyStrW rngW).2.1
      rfl rfl (by decide)
  · exact (c1_accepted_width_exact cfgW oracleW priorsW pyStrW rngW).1
      treeW tripleW ⟨streamW, 1⟩ attemptStep_acceptW

/-! ### C2: rejected attempts write nothing; completed runs are contiguous -/

/-- C2: a rejected attempt leaves the file list and the replicate index
unchanged and re-enters the loop for the same slot (only the rng and the
stderr log advance); and a completed run that started with an empty file
list holds output triples exactly for the contiguous indices
`start_idx, ..., start_idx + batch_size - 1`. -/
theorem c2_rejection_frame_and_contiguity (cfg : Config) (oracle : Oracle)
    (priors : Priors) (pyStr : ℝ → String) :
    (∀ fuel idx end_idx rng files log msgs rng2, idx < end_idx →
      attemptStep cfg oracle priors pyStr rng = (.rejected msgs, rng2) →
      runLoop cfg oracle priors pyStr (fuel + 1) idx end_idx rng files log =
        runLoop cfg oracle priors pyStr fuel idx end_idx rng2 files (log ++ msgs)) ∧
    (∀ fuel start_idx batch_size rng files log2 rng2,
      runLoop cfg oracle priors pyStr fuel start_idx (start_idx + batch_size) rng [] [] =
        .completed files log2 rng2 →
      files.map Prod.fst = List.range' start_idx batch_size ∧
      files.length = batch_size) := by
  constructor
  · intro fuel idx end_idx rng files log msgs rng2 hlt hstep
    exact runLoop_rejected_step cfg oracle priors pyStr fuel idx end_idx rng
      files log msgs rng2 hlt hstep
  · intro fuel start_idx batch_size rng files log2 rng2 h
    have h2 := runLoop_completed_indices cfg oracle priors pyStr fuel start_idx
      (start_idx + batch_size) rng [] [] files log2 rng2 h
    have h3 : start_idx + batch_size - start_idx = batch_size := by omega
    rw [h3] at h2
    simp only [List.map_nil, List.nil_append] at h2
    refine ⟨h2, ?_⟩
    have h4 : (files.map Prod.fst).length = files.length := List.length_map _ _
    rw [h2] at h4
    rw [← h4, List.length_range']

/-- Witness for C2: a concrete completed one-replicate run whose single
output triple sits at exactly the start index. -/
theorem c2_witness :
    runLoop cfgW oracleW priorsW pyStrW 2 5 6 rngW [] [] =
      .completed [(5, tripleW)] [] ⟨streamW, 1⟩ ∧
    ([(5, tripleW)].map Prod.fst = List.range' 5 1 ∧
      ([(5, tripleW)] : List (ℕ × OutputTriple)).length = 1) := by
  have hrun : runLoop cfgW oracleW priorsW pyStrW 2 5 6 rngW [] [] =
      .completed [(5, tripleW)] [] ⟨streamW, 1⟩ := by
    have h1 := runLoop_accepted_step cfgW oracleW priorsW pyStrW 1 5 6 rngW [] []
      treeW tripleW ⟨streamW, 1⟩ (by omega) attemptStep_acceptW
    have h2 := runLoop_exit cfgW oracleW priorsW pyStrW 0 6 6 ⟨streamW, 1⟩
      [(5, tripleW)] [] (by omega)
    rw [h1]
    simpa using h2
  exact ⟨hrun, (c2_rejection_frame_and_contiguity cfgW oracleW priorsW pyStrW).2
    2 5 1 rngW [(5, tripleW)] [] ⟨streamW, 1⟩ hrun⟩

/-! ### C5: the whole batch is a deterministic function of its inputs -/

/-- C5: the driver's outcome is a pure function of the start index, the
priors, the batch size and the (deterministic) oracle: the single random
stream is seeded only from `start_idx`, rejected attempts advance it inside
`runLoop` in both runs alike, and two runs with equal inputs produce equal
output file triples. -/
theorem c5_determinism (default_rng : ℕ → RNG) (oracle1 oracle2 : Oracle)
    (priors1 priors2 : Priors) (pyStr : ℝ → String)
    (start1 start2 batch1 batch2 fuel : ℕ)
    (ho : oracle1 = oracle2) (hp : priors1 = priors2) (hs : start1 = start2)
    (hb : batch1 = batch2) :
    sim_main default_rng oracle1 priors1 pyStr start1 batch1 fuel =
      sim_main default_rng oracle2 priors2 pyStr start2 batch2 fuel := by
  subst ho hp hs hb
  rfl

/-- Witness for C5 at a concrete instance. -/
theorem c5_witness :
    sim_main (fun _ => rngW) oracleW priorsW pyStrW 0 1 3 =
      sim_main (fun _ => rngW) oracleW priorsW pyStrW 0 1 3 :=
  c5_determinism (fun _ => rngW) oracleW oracleW priorsW priorsW pyStrW 0 0 1 1 3
    rfl rfl rfl rfl

/-! ### C6: a strict-mode extant overage is always a retryable rejection -/

/-- C6: when strict mode is on and `max_extant_leaves` is set (truthy,
hence nonzero) and equal to `tree_width`, an attempt whose tree has
`tree_width + 1` extant leaves is rejected as a retryable rejection — the
loop re-enters the same slot — and the fatal exact-width assertion is never
reached. -/
theorem c6_strict_overage_retryable (cfg : Config) (oracle : Oracle)
    (priors : Priors) (pyStr : ℝ → String) (rng : RNG)
    (hstrict : cfg.max_leaves_strict = true)
    (hset : cfg.max_extant_leaves = some cfg.tree_width)
    (hw : cfg.tree_width ≠ 0)
    (hcount : (attemptSim cfg oracle priors rng).2.1.root.number_of_extant_leaves =
      cfg.tree_width + 1) :
    ∃ msgs, attemptStep cfg oracle priors pyStr rng =
        (.rejected msgs, (attemptSim cfg oracle priors rng).2.2) ∧
      ∀ fuel idx end_idx files log, idx < end_idx →
        runLoop cfg oracle priors pyStr (fuel + 1) idx end_idx rng files log =
          runLoop cfg oracle priors pyStr fuel idx end_idx
            (attemptSim cfg oracle priors rng).2.2 files (log ++ msgs) := by
  have hstep : ∃ msgs, attemptStep cfg oracle priors pyStr rng =
      (.rejected msgs, (attemptSim cfg oracle priors rng).2.2) := by
    unfold attemptStep
    by_cases hdead : (!(attemptSim cfg oracle priors rng).2.1.survived &&
        !cfg.keep_extinct_trees) = true
    · exact ⟨[], by rw [if_pos hdead]⟩
    · rw [if_neg hdead]
      have hmsg : ∃ m, strictRejectMsg cfg (attemptSim cfg oracle priors rng).2.1.root =
          some m := by
        unfold strictRejectMsg
        rw [hstrict, if_pos rfl]
        by_cases htot : (pyTruthy cfg.max_total_leaves && decide
            ((attemptSim cfg oracle priors rng).2.1.root.number_of_leaves >
              cfg.max_total_leaves.getD 0)) = true
        · rw [if_pos htot]
          exact ⟨_, rfl⟩
        · rw [if_neg htot]
          have hex : (pyTruthy cfg.max_extant_leaves && decide
              ((attemptSim cfg oracle priors rng).2.1.root.number_of_extant_leaves >
                cfg.max_extant_leaves.getD 0)) = true := by
            rw [hset, hcount]
            simp only [pyTruthy, Option.getD_some, Bool.and_eq_true, ne_eq,
              decide_eq_true_eq]
            exact ⟨by simpa using hw, by omega⟩
          rw [if_pos hex]
          exact ⟨_, rfl⟩
      obtain ⟨m, hm⟩ := hmsg
      rw [hm]
      exact ⟨[m], rfl⟩
  obtain ⟨msgs, hmsgs⟩ := hstep
  refine ⟨msgs, hmsgs, ?_⟩
  intro fuel idx end_idx files log hlt
  exact runLoop_rejected_step cfg oracle priors pyStr fuel idx end_idx rng
    files log msgs _ hlt hmsgs

/-- Witness for C6: the driver's own configuration (strict mode, extant
limit 500 equal to the target width) with an oracle stub returning a
surviving 501-extant-leaf tree. -/
theorem c6_witness :
    mainConfig.max_leaves_strict = true ∧
    mainConfig.max_extant_leaves = some mainConfig.tree_width ∧
    mainConfig.tree_width ≠ 0 ∧
    (attemptSim mainConfig oracle501 defaultPriors rngW).2.1.root.number_of_extant_leaves
      = mainConfig.tree_width + 1 ∧
    ∃ msgs, attemptStep mainConfig oracle501 defaultPriors pyStrW rngW =
        (.rejected msgs, (attemptSim mainConfig oracle501 defaultPriors rngW).2.2) ∧
      ∀ fuel idx end_idx files log, idx < end_idx →
        runLoop mainConfig oracle501 defaultPriors pyStrW (fuel + 1) idx end_idx rngW
          files log =
          runLoop mainConfig oracle501 defaultPriors pyStrW fuel idx end_idx
            (attemptSim mainConfig oracle501 defaultPriors rngW).2.2 files (log ++ msgs) :=
  ⟨rfl, rfl, by decide, rfl,
    c6_strict_overage_retryable mainConfig oracle501 defaultPriors pyStrW rngW
      rfl rfl (by decide) rfl⟩

/-! ### C9: a limit of zero behaves like an absent limit -/

/-- C9: each strict-mode leaf-count limit is tested for Python truthiness
before its overage comparison, so a limit configured as `0` gives exactly
the same strict-check outcome as an absent (`None`) limit, for every tree:
no attempt is ever rejected by a zero limit. -/
theorem c9_zero_limit_like_absent (cfg : Config) (root : TreeHandle) :
    strictRejectMsg { cfg with max_total_leaves := some 0 } root =
      strictRejectMsg { cfg with max_total_leaves := none } root ∧
    strictRejectMsg { cfg with max_extant_leaves := some 0 } root =
      strictRejectMsg { cfg with max_extant_leaves := none } root ∧
    strictRejectMsg { cfg with max_extinct_leaves := some 0 } root =
      strictRejectMsg { cfg with max_extinct_leaves := none } root := by
  refine ⟨?_, ?_, ?_⟩ <;> simp [strictRejectMsg, pyTruthy]

/-! ### C3: rejection diagnostics -/

theorem totalMsg_take (l n : ℕ) : (totalMsg l n).data.take 8 = "max_tota".data := by
  unfold totalMsg
  rw [String.data_append, String.data_append, String.data_append, String.data_append]
  simp only [List.append_assoc]
  rw [List.take_append_of_le_length (by decide)]
  decide

theorem extantMsg_take (l n : ℕ) : (extantMsg l n).data.take 8 = "max_exta".data := by
  unfold extantMsg
  rw [String.data_append, String.data_append, String.data_append, String.data_append]
  simp only [List.append_assoc]
  rw [List.take_append_of_le_length (by decide)]
  decide

theorem extinctMsg_take (l n : ℕ) : (extinctMsg l n).data.take 8 = "max_exti".data := by
  unfold extinctMsg
  rw [String.data_append, String.data_append, String.data_append, String.data_append]
  simp only [List.append_assoc]
  rw [List.take_append_of_le_length (by decide)]
  decide

/-- C3 counterexample: an attempt rejected for failed survival produces an
empty diagnostic list — the driver emits nothing to the error stream for a
survival rejection, contradicting the claim that every rejected attempt
logs a diagnostic. -/
theorem c3_counterexample :
    attemptStep cfgW oracleDead priorsW pyStrW rngW =
      (.rejected [], ⟨streamW, 1⟩) := rfl

/-- C3 (amended): an attempt rejected by a strict-mode shape check emits
exactly one diagnostic on the error stream, with a distinct message per
rule (total, extant, extinct); an attempt rejected for failed survival is
discarded silently, emitting no diagnostic, before the slot is retried. -/
theorem c3_strict_diagnostics_survival_silent (cfg : Config) (oracle : Oracle)
    (priors : Priors) (pyStr : ℝ → String) (rng : RNG) :
    ((!(attemptSim cfg oracle priors rng).2.1.survived &&
        !cfg.keep_extinct_trees) = true →
      attemptStep cfg oracle priors pyStr rng =
        (.rejected [], (attemptSim cfg oracle priors rng).2.2)) ∧
    (∀ m, strictRejectMsg cfg (attemptSim cfg oracle priors rng).2.1.root = some m →
      (!(attemptSim cfg oracle priors rng).2.1.survived &&
        !cfg.keep_extinct_trees) = false →
      attemptStep cfg oracle priors pyStr rng =
        (.rejected [m], (attemptSim cfg oracle priors rng).2.2)) ∧
    (∀ l1 n1 l2 n2, totalMsg l1 n1 ≠ extantMsg l2 n2) ∧
    (∀ l1 n1 l2 n2, totalMsg l1 n1 ≠ extinctMsg l2 n2) ∧
    (∀ l1 n1 l2 n2, extantMsg l1 n1 ≠ extinctMsg l2 n2) := by
  refine ⟨?_, ?_, ?_, ?_, ?_⟩
  · intro hdead
    simp only [attemptStep]
    rw [if_pos hdead]
  · intro m hm hsurv
    simp only [attemptStep]
    rw [hsurv]
    simp only [Bool.false_eq_true, if_false]
    rw [hm]
  · intro l1 n1 l2 n2 h
    have h8 := congrArg (fun s => s.data.take 8) h
    simp only [totalMsg_take, extantMsg_take] at h8
    exact absurd h8 (by decide)
  · intro l1 n1 l2 n2 h
    have h8 := congrArg (fun s => s.data.take 8) h
    simp only [totalMsg_take, extinctMsg_take] at h8
    exact absurd h8 (by decide)
  · intro l1 n1 l2 n2 h
    have h8 := congrArg (fun s => s.data.take 8) h
    simp only [extantMsg_take, extinctMsg_take] at h8
    exact absurd h8 (by decide)

/-- Witness for the amended C3: a concrete survival-rejected attempt with
its (empty) diagnostic list, and a concrete distinctness instance. -/
theorem c3_witness :
    (!(attemptSim cfgW oracleDead priorsW rngW).2.1.survived &&
        !cfgW.keep_extinct_trees) = true ∧
    attemptStep cfgW oracleDead priorsW pyStrW rngW =
      (.rejected [], (attemptSim cfgW oracleDead priorsW rngW).2.2) ∧
    totalMsg 500 501 ≠ extantMsg 500 501 :=
  ⟨rfl,
    (c3_strict_diagnostics_survival_silent cfgW oracleDead priorsW pyStrW rngW).1 rfl,
    (c3_strict_diagnostics_survival_silent cfgW oracleDead priorsW pyStrW rngW).2.2.1
      500 501 500 501⟩

/-! ### C7: shape of the labels file -/

theorem charListLe_total (a : List Char) :
    ∀ b, charListLe a b = true ∨ charListLe b a = true := by
  induction a with
  | nil => intro b; left; rfl
  | cons c cs ih =>
      intro b
      cases b with
      | nil => right; rfl
      | cons d ds =>
          by_cases h1 : c < d
          · left
            simp [charListLe, h1]
          · by_cases h2 : d < c
            · right
              simp [charListLe, h2]
            · rcases ih ds with h | h
              · left
                simp [charListLe, h1, h2, h]
              · right
                simp [charListLe, h1, h2, h]

theorem charListLe_trans (a : List Char) :
    ∀ b c, charListLe a b = true → charListLe b c = true → charListLe a c = true := by
  induction a with
  | nil => intro b c _ _; rfl
  | cons x xs ih =>
      intro b c h1 h2
      cases b with
      | nil => simp [charListLe] at h1
      | cons y ys =>
          cases c with
          | nil => simp [charListLe] at h2
          | cons z zs =>
              simp only [charListLe] at h1 h2 ⊢
              by_cases hxy : x < y
              · by_cases hyz : y < z
                · rw [if_pos (lt_trans hxy hyz)]
                · by_cases hzy : z < y
                  · rw [if_neg hyz, if_pos hzy] at h2
                    exact absurd h2 (by simp)
                  · have hyzeq : y = z := le_antisymm (not_lt.mp hzy) (not_lt.mp hyz)
                    subst hyzeq
                    rw [if_pos hxy]
              · by_cases hyx : y < x
                · rw [if_neg hxy, if_pos hyx] at h1
                  exact absurd h1 (by simp)
                · have hxyeq : x = y := le_antisymm (not_lt.mp hyx) (not_lt.mp hxy)
                  subst hxyeq
                  rw [if_neg hxy, if_neg hyx] at h1
                  by_cases hxz : x < z
                  · rw [if_pos hxz]
                  · by_cases hzx : z < x
                    · rw [if_neg hxz, if_pos hzx] at h2
                      exact absurd h2 (by simp)
                    · have hxzeq : x = z := le_antisymm (not_lt.mp hzx) (not_lt.mp hxz)
                      subst hxzeq
                      rw [if_neg hxz, if_neg hzx] at h2 ⊢
                      exact ih ys zs h1 h2

theorem pySorted_sorted (l : List String) :
    List.Sorted (fun a b => strLeb a b = true) (pySorted l) := by
  haveI : IsTotal String (fun a b => strLeb a b = true) :=
    ⟨fun a b => charListLe_total a.data b.data⟩
  haveI : IsTrans String (fun a b => strLeb a b = true) :=
    ⟨fun a b c => charListLe_trans a.data b.data c.data⟩
  exact List.sorted_insertionSort _ _

theorem pySorted_perm (l : List String) : (pySorted l).Perm l :=
  List.perm_insertionSort _ _

theorem foldl_join_not_mem (ch : Char) (sep : String) (hsep : ch ∉ sep.data) :
    ∀ (xs : List String) (acc : String), ch ∉ acc.data → (∀ p ∈ xs, ch ∉ p.data) →
      ch ∉ (xs.foldl (fun acc y => acc ++ sep ++ y) acc).data := by
  intro xs
  induction xs with
  | nil => intro acc hacc _; exact hacc
  | cons y ys ih =>
      intro acc hacc h
      simp only [List.foldl_cons]
      apply ih
      · intro hmem
        rw [String.data_append, String.data_append] at hmem
        rcases List.mem_append.mp hmem with hm | hm
        · rcases List.mem_append.mp hm with hm2 | hm2
          · exact hacc hm2
          · exact hsep hm2
        · exact h y (by simp) hm
      · exact fun p hp => h p (by simp [hp])

theorem pyJoin_not_mem (ch : Char) (sep : String) (hsep : ch ∉ sep.data)
    (parts : List String) (h : ∀ p ∈ parts, ch ∉ p.data) :
    ch ∉ (pyJoin sep parts).data := by
  cases parts with
  | nil => simp [pyJoin]
  | cons x xs =>
      simp only [pyJoin]
      exact foldl_join_not_mem ch sep hsep xs x (h x (by simp))
        (fun p hp => h p (by simp [hp]))

theorem count_data_append (ch : Char) (a b : String) :
    (a ++ b).data.count ch = a.data.count ch + b.data.count ch := by
  rw [String.data_append, List.count_append]

/-- The eleven keys of the log10 parameter dict, in insertion order; they
coincide with the `label_names` list configured in `main()`. -/
theorem get_log10_keys (m : SDSDModel) (d : List (String × ℝ))
    (h : get_log10_model_parameters m = some d) :
    d.map Prod.fst = mainLabelNames := by
  have hsome : (get_log10_model_parameters m).isSome := by rw [h]; rfl
  rw [get_log10_model_parameters, optMapList_isSome_iff] at hsome
  have hpos : ∀ kv ∈ get_model_parameters m, 0 < kv.2 := by
    intro kv hkv
    have hs := hsome kv hkv
    rw [option_map_isSome] at hs
    exact (math_log10_isSome kv.2).mp hs
  have heq : optMapList
      (fun kv : String × ℝ => (math_log10 kv.2).map (fun l => ("log10_" ++ kv.1, l)))
      (get_model_parameters m) =
      some ((get_model_parameters m).map
        (fun kv => ("log10_" ++ kv.1, Real.logb 10 kv.2))) := by
    apply optMapList_eq_some_map
    intro kv hkv
    rw [math_log10, if_pos (hpos kv hkv)]
    rfl
  rw [get_log10_model_parameters, heq] at h
  cases h
  rw [List.map_map]
  rfl

/-- C7: for every accepted attempt, the labels file is a header line of the
comma-joined reduced label names in sorted order, followed by one data row
of the corresponding rendered values in the same order; the reduced names
are exactly the configured label subset when one is configured (non-empty),
and all eleven derived log10 keys when the subset is empty; and the file
holds exactly two newline-terminated lines whenever names and rendered
values are newline-free. -/
theorem c7_labels_file_shape (cfg : Config) (oracle : Oracle) (priors : Priors)
    (pyStr : ℝ → String) (rng : RNG) (root : TreeHandle) (files : OutputTriple)
    (rng2 : RNG)
    (hacc : attemptStep cfg oracle priors pyStr rng = (.accepted root files, rng2)) :
    ∃ reduced : List (String × ℝ),
      files.labels = pyJoin "," (pySorted (reduced.map Prod.fst)) ++ "\n" ++
        pyJoin "," ((pySorted (reduced.map Prod.fst)).map
          (fun n => pyStr ((reduced.lookup n).getD 0))) ++ "\n" ∧
      List.Sorted (fun a b => strLeb a b = true) (pySorted (reduced.map Prod.fst)) ∧
      (pySorted (reduced.map Prod.fst)).Perm (reduced.map Prod.fst) ∧
      (cfg.label_names = [] → reduced.map Prod.fst = mainLabelNames) ∧
      (cfg.label_names ≠ [] → reduced.map Prod.fst = cfg.label_names) ∧
      ((∀ nm ∈ reduced.map Prod.fst, ('\n' : Char) ∉ nm.data) →
        (∀ v : ℝ, ('\n' : Char) ∉ (pyStr v).data) →
        files.labels.data.count '\n' = 2) := by
  simp only [attemptStep] at hacc
  by_cases h1 : (!(attemptSim cfg oracle priors rng).2.1.survived &&
      !cfg.keep_extinct_trees) = true
  · rw [if_pos h1] at hacc
    exact absurd hacc (by simp)
  · rw [if_neg h1] at hacc
    cases h2 : strictRejectMsg cfg (attemptSim cfg oracle priors rng).2.1.root with
    | some m =>
        rw [h2] at hacc
        exact absurd hacc (by simp)
    | none =>
        rw [h2] at hacc
        dsimp only at hacc
        by_cases h3 : (attemptSim cfg oracle priors rng).2.1.root.number_of_extant_leaves
            = cfg.tree_width
        · rw [if_pos h3] at hacc
          cases h4 : get_log10_model_parameters (attemptSim cfg oracle priors rng).1 with
          | none =>
              rw [h4] at hacc
              exact absurd hacc (by simp)
          | some lv =>
              rw [h4] at hacc
              dsimp only at hacc
              cases h5 : (if cfg.label_names.isEmpty then some lv
                  else pyDictComp lv cfg.label_names) with
              | none =>
                  rw [h5] at hacc
                  exact absurd hacc (by simp)
              | some reduced =>
                  rw [h5] at hacc
                  rw [Prod.mk.injEq] at hacc
                  have hfiles := (StepResult.accepted.inj hacc.1).2
                  refine ⟨reduced, ?_, pySorted_sorted _, pySorted_perm _, ?_, ?_, ?_⟩
                  · rw [← hfiles]
                    rfl
                  · intro hempty
                    rw [if_pos (by simp [hempty])] at h5
                    cases h5
                    exact get_log10_keys _ _ h4
                  · intro hne
                    rw [if_neg (by simpa using hne)] at h5
                    exact pyDictComp_keys lv cfg.label_names reduced h5
                  · intro hnames hvals
                    rw [← hfiles]
                    show (stream_variables pyStr reduced).data.count '\n' = 2
                    simp only [stream_variables]
                    rw [count_data_append, count_data_append, count_data_append]
                    have hh : (pyJoin ","
                        (pySorted (reduced.map Prod.fst))).data.count '\n' = 0 := by
                      apply List.count_eq_zero.mpr
                      apply pyJoin_not_mem _ _ (by decide)
                      intro p hp
                      exact hnames p ((pySorted_perm (reduced.map Prod.fst)).mem_iff.mp hp)
                    have hv : (pyJoin ","
                        ((pySorted (reduced.map Prod.fst)).map
                          (fun n => pyStr ((reduced.lookup n).getD 0)))).data.count '\n'
                        = 0 := by
                      apply List.count_eq_zero.mpr
                      apply pyJoin_not_mem _ _ (by decide)
                      intro p hp
                      obtain ⟨n, -, rfl⟩ := List.mem_map.mp hp
                      exact hvals _
                    rw [hh, hv]
                    decide
        · rw [if_neg h3] at hacc
          exact absurd hacc (by simp)

/-- Witness for C7: the concrete accepted attempt of `cfgW` (empty label
subset, so all eleven log10 keys appear). -/
theorem c7_witness :
    attemptStep cfgW oracleW priorsW pyStrW rngW =
      (.accepted treeW tripleW, ⟨streamW, 1⟩) ∧
    ∃ reduced : List (String × ℝ),
      tripleW.labels = pyJoin "," (pySorted (reduced.map Prod.fst)) ++ "\n" ++
        pyJoin "," ((pySorted (reduced.map Prod.fst)).map
          (fun n => pyStrW ((reduced.lookup n).getD 0))) ++ "\n" ∧
      List.Sorted (fun a b => strLeb a b = true) (pySorted (reduced.map Prod.fst)) ∧
      (pySorted (reduced.map Prod.fst)).Perm (reduced.map Prod.fst) ∧
      (cfgW.label_names = [] → reduced.map Prod.fst = mainLabelNames) ∧
      (cfgW.label_names ≠ [] → reduced.map Prod.fst = cfgW.label_names) ∧
      ((∀ nm ∈ reduced.map Prod.fst, ('\n' : Char) ∉ nm.data) →
        (∀ v : ℝ, ('\n' : Char) ∉ (pyStrW v).data) →
        tripleW.labels.data.count '\n' = 2) :=
  ⟨attemptStep_acceptW,
    c7_labels_file_shape cfgW oracleW priorsW pyStrW rngW treeW tripleW
      ⟨streamW, 1⟩ attemptStep_acceptW⟩

/-! ### C10: the tip-data file is written in all-zeros mode -/

/-- C10: every accepted attempt writes its tip-data file through the
tip-state writer with the all-zeros flag set: the file is the `taxa,data`
header followed by one `label,0` row per leaf in iteration order, and its
content depends only on the leaf labels — the leaves' terminal states never
reach any output file. -/
theorem c10_tip_data_all_zeros (cfg : Config) (oracle : Oracle) (priors : Priors)
    (pyStr : ℝ → String) (rng : RNG) (root : TreeHandle) (files : OutputTriple)
    (rng2 : RNG)
    (hacc : attemptStep cfg oracle priors pyStr rng = (.accepted root files, rng2)) :
    files.data = stream_tip_states root true ∧
    stream_tip_states root true =
      "taxa,data\n" ++ String.join (root.leaves.map (fun leaf => leaf.label ++ ",0\n")) ∧
    (∀ t1 t2 : TreeHandle, t1.leaves.map Leaf.label = t2.leaves.map Leaf.label →
      stream_tip_states t1 true = stream_tip_states t2 true) := by
  refine ⟨?_, by simp [stream_tip_states], ?_⟩
  · simp only [attemptStep] at hacc
    by_cases h1 : (!(attemptSim cfg oracle priors rng).2.1.survived &&
        !cfg.keep_extinct_trees) = true
    · rw [if_pos h1] at hacc
      exact absurd hacc (by simp)
    · rw [if_neg h1] at hacc
      cases h2 : strictRejectMsg cfg (attemptSim cfg oracle priors rng).2.1.root with
      | some m =>
          rw [h2] at hacc
          exact absurd hacc (by simp)
      | none =>
          rw [h2] at hacc
          dsimp only at hacc
          by_cases h3 : (attemptSim cfg oracle priors rng).2.1.root.number_of_extant_leaves
              = cfg.tree_width
          · rw [if_pos h3] at hacc
            cases h4 : get_log10_model_parameters (attemptSim cfg oracle priors rng).1 with
            | none =>
                rw [h4] at hacc
                exact absurd hacc (by simp)
            | some lv =>
                rw [h4] at hacc
                dsimp only at hacc
                cases h5 : (if cfg.label_names.isEmpty then some lv
                    else pyDictComp lv cfg.label_names) with
                | none =>
                    rw [h5] at hacc
                    exact absurd hacc (by simp)
                | some reduced =>
                    rw [h5] at hacc
                    rw [Prod.mk.injEq] at hacc
                    have hroot := (StepResult.accepted.inj hacc.1).1
                    have hfiles := (StepResult.accepted.inj hacc.1).2
                    rw [← hfiles, ← hroot]
          · rw [if_neg h3] at hacc
            exact absurd hacc (by simp)
  · intro t1 t2 hlab
    show "taxa,data\n" ++ _ = "taxa,data\n" ++ _
    simp only [stream_tip_states, if_true]
    have hmap : ∀ t : TreeHandle, t.leaves.map
        (fun leaf => leaf.label ++ ",0\n") =
        (t.leaves.map Leaf.label).map (fun s => s ++ ",0\n") := by
      intro t
      rw [List.map_map]
      rfl
    rw [hmap, hmap, hlab]

/-- Witness for C10: the concrete accepted attempt of `cfgW`, whose
tip-data file is the header plus one `t0,0` row. -/
theorem c10_witness :
    attemptStep cfgW oracleW priorsW pyStrW rngW =
      (.accepted treeW tripleW, ⟨streamW, 1⟩) ∧
    tripleW.data = stream_tip_states treeW true ∧
    stream_tip_states treeW true =
      "taxa,data\n" ++ String.join (treeW.leaves.map (fun leaf => leaf.label ++ ",0\n")) :=
  ⟨attemptStep_acceptW,
    (c10_tip_data_all_zeros cfgW oracleW priorsW pyStrW rngW treeW tripleW
      ⟨streamW, 1⟩ attemptStep_acceptW).1,
    (c10_tip_data_all_zeros cfgW oracleW priorsW pyStrW rngW treeW tripleW
      ⟨streamW, 1⟩ attemptStep_acceptW).2.1⟩

end SimBdb
